import Mathlib

/-!
Verification of the zetes JSON engine (src/zetes.h) against its
natural-language specification.

The engine is shallowly embedded: the context is a structure whose fields
mirror the fields of the C struct zetes_t.  Addresses (the arena bounds,
the arena cursor and the stack storage address) are natural numbers; the
size_t subtraction in alloc is modelled modulo 2^64 exactly as the C
computes it.  The operand stack is the list of values between stack_ptr
and stack_end, most recent first, so the C stack pointer is the derived
quantity stack_end - sizeof_value * stack.length.  String payloads are
the byte sequences of the NUL-terminated C strings (hence NUL-free byte
lists); Array and Object payloads are references (indices) into
append-only heaps holding the node lists, which mirrors the C layout
where a stack copy shares the underlying node list with the original.
Sizes are those of an LP64 platform with the default configuration
(ZETES_ALIGN = 8, ZETES_NUMBER_TYPE = double): pointers take 8 bytes and
zetes_value_t takes 16.

Numbers are carried as exact rationals: none of the stack or container
operations computes with the numeric payload, and the floating-point
formatting and reconstruction paths are noted where they occur.
-/

namespace Zetes

inductive zetes_result_t where
  | UNINITIALIZED
  | OK
  | OUT_OF_MEMORY
  | STACK_EMPTY
  | STACK_FULL
  | INDEX_OUT_OF_BOUNDS
  | KEY_NOT_FOUND
  | TYPE_MISMATCH
  | INVALID_STACK
  | WRITE_ERROR
  | READ_ERROR
  | INVALID_CHARACTER
  | INVALID_NUMBER
  | INVALID_STRING
  | UNKNOWN_KEYWORD
  | UNEXPECTED_END_OF_INPUT
  | SYNTAX_ERROR
  deriving DecidableEq

inductive zetes_type_t where
  | NONE
  | NULL
  | BOOL
  | NUMBER
  | STRING
  | ARRAY
  | OBJECT
  deriving DecidableEq

/-- A tagged value, mirroring zetes_value_t (tag plus union payload).
vString carries the bytes of the NUL-terminated C string (NUL-free);
vArray and vObject carry a reference into the respective heap, matching
the union members _array and _object.  vUndef stands for a stack slot
whose bytes were never written (stack_emplace reserves the slot before
the payload allocation); no theorem below depends on the contents of
such a slot. -/
inductive zetes_value_t where
  | vNull
  | vBool (b : Bool)
  | vNumber (x : Rat)
  | vString (s : List Nat)
  | vArray (id : Nat)
  | vObject (id : Nat)
  | vUndef
  deriving DecidableEq

instance : Inhabited zetes_value_t := ⟨.vUndef⟩

/-- The type tag stored in a value.  An uninitialized slot has
unspecified tag bytes; it is mapped to NONE, and no theorem reads the
tag of an uninitialized slot. -/
def typeOf : zetes_value_t → zetes_type_t
  | .vNull => .NULL
  | .vBool _ => .BOOL
  | .vNumber _ => .NUMBER
  | .vString _ => .STRING
  | .vArray _ => .ARRAY
  | .vObject _ => .OBJECT
  | .vUndef => .NONE

/-- ZETES_ALIGN, the default alignment. -/
def ZETES_ALIGN : Nat := 8

/-- sizeof(zetes_value_t) on LP64: 4-byte enum padded to 8, 8-byte union. -/
def sizeof_value : Nat := 16

/-- sizeof(zetes_array_t): two pointers. -/
def sizeof_array : Nat := 16

/-- sizeof(zetes_object_t): two pointers. -/
def sizeof_object : Nat := 16

/-- sizeof(zetes_array_element_t): next pointer (8) plus value (16). -/
def sizeof_array_element : Nat := 24

/-- sizeof(zetes_object_member_t): next (8), key (8), value (16). -/
def sizeof_object_member : Nat := 32

/-- 2^64: the modulus of size_t and uintptr_t arithmetic. -/
def SIZE_MOD : Nat := 18446744073709551616

/-- The context, mirroring struct zetes_t.  stack holds the values
between stack_ptr and stack_end, most recent first; arrays and objects
are the heaps of node lists reached through vArray / vObject
references. -/
structure zetes_t where
  result : zetes_result_t
  buffer_begin : Nat
  buffer_end : Nat
  buffer_ptr : Nat
  stack_begin : Nat
  stack_depth : Nat
  stack : List zetes_value_t
  arrays : List (List zetes_value_t)
  objects : List (List (List Nat × zetes_value_t))
  deriving DecidableEq

/-- Address of stack_end (one past the highest stack slot). -/
def stack_end_addr (c : zetes_t) : Nat :=
  c.stack_begin + sizeof_value * c.stack_depth

/-- Address of the C stack pointer: the stack grows downward from
stack_end, one slot per value currently on the stack. -/
def stack_ptr_addr (c : zetes_t) : Nat :=
  stack_end_addr c - sizeof_value * c.stack.length

/-- set_error: latches the first failure; later failures do not
overwrite it. -/
def set_error (c : zetes_t) (r : zetes_result_t) : zetes_t :=
  if c.result = .OK then { c with result := r } else c

/-- align_ptr: round an address up to the next ZETES_ALIGN boundary. -/
def align_ptr (p : Nat) : Nat :=
  ((p + (ZETES_ALIGN - 1)) / ZETES_ALIGN) * ZETES_ALIGN

/-- The size_t value buffer_end - buffer_ptr computed in alloc.  When
the cursor has passed the end (which the code allows to happen, see the
theorem for C9) the C subtraction underflows; the modulus reproduces
that. -/
def space (c : zetes_t) : Nat :=
  (c.buffer_end + SIZE_MOD - c.buffer_ptr) % SIZE_MOD

/-- alloc: bump allocation.  Returns the old cursor and advances the
cursor to align_ptr(cursor + size); on insufficient space latches
OUT_OF_MEMORY and returns none. -/
def alloc (c : zetes_t) (size : Nat) : zetes_t × Option Nat :=
  if space c < size then (set_error c .OUT_OF_MEMORY, none)
  else ({ c with buffer_ptr := align_ptr (c.buffer_ptr + size) }, some c.buffer_ptr)

/-- zetes_init: carves the stack storage out of the buffer via alloc
before any value allocation.  On allocation failure the C stack_begin is
the null pointer, modelled as address 0 (the OUT_OF_MEMORY result is
latched in that case). -/
def zetes_init (stack_depth : Nat) (buffer : Nat) (buffer_size : Nat) : zetes_t :=
  let c0 : zetes_t :=
    { result := .OK
      buffer_begin := buffer
      buffer_end := buffer + buffer_size
      buffer_ptr := align_ptr buffer
      stack_begin := 0
      stack_depth := stack_depth
      stack := []
      arrays := []
      objects := [] }
  let r := alloc c0 (stack_depth * sizeof_value)
  { r.1 with stack_begin := (r.2).getD 0 }

/-- zetes_reset: clears the result, rewinds the arena cursor to
buffer_begin (the raw start of the caller buffer, not the position the
cursor had after zetes_init carved out the stack) and empties the
stack.  The heaps are untouched memory and are kept, now unreachable
from the empty stack. -/
def zetes_reset (c : zetes_t) : zetes_t :=
  { c with result := .OK, buffer_ptr := c.buffer_begin, stack := [] }

/-- zetes_result. -/
def zetes_result (c : zetes_t) : zetes_result_t :=
  c.result

/-- ok: whether the context is in the OK state. -/
def ok (c : zetes_t) : Bool :=
  decide (c.result = zetes_result_t.OK)

/-- stack_emplace: when OK and a slot is free, decrements the stack
pointer and hands the (uninitialized) slot to the caller; the model
pushes vUndef and the caller overwrites it through set_top.  The C
condition stack_ptr > stack_begin is stack.length < stack_depth. -/
def stack_emplace (c : zetes_t) : zetes_t × Bool :=
  if ok c then
    if c.stack.length < c.stack_depth then
      ({ c with stack := .vUndef :: c.stack }, true)
    else (set_error c .STACK_FULL, false)
  else (c, false)

/-- Writing through the slot pointer returned by stack_emplace. -/
def set_top (c : zetes_t) (v : zetes_value_t) : zetes_t :=
  { c with stack := v :: c.stack.tail }

/-- stack_validate. -/
def stack_validate (c : zetes_t) (min_depth : Nat) : zetes_t × Bool :=
  if ok c then
    if min_depth ≤ c.stack.length then (c, true)
    else (set_error c .STACK_EMPTY, false)
  else (c, false)

/-- type_validate. -/
def type_validate (c : zetes_t) (expected actual : zetes_type_t) : zetes_t × Bool :=
  if expected = actual then (c, true)
  else (set_error c .TYPE_MISMATCH, false)

/-- zetes_push_null. -/
def zetes_push_null (c : zetes_t) : zetes_t :=
  let r := stack_emplace c
  if r.2 then set_top r.1 .vNull else r.1

/-- zetes_push_bool. -/
def zetes_push_bool (c : zetes_t) (value : Bool) : zetes_t :=
  let r := stack_emplace c
  if r.2 then set_top r.1 (.vBool value) else r.1

/-- zetes_push_number. -/
def zetes_push_number (c : zetes_t) (value : Rat) : zetes_t :=
  let r := stack_emplace c
  if r.2 then set_top r.1 (.vNumber value) else r.1

/-- zetes_push_string: copies strlen(value)+1 bytes into the arena.  The
parameter is the byte sequence of the C string, hence NUL-free.  When
the arena allocation fails the slot reserved by stack_emplace stays on
the stack with unwritten contents. -/
def zetes_push_string (c : zetes_t) (value : List Nat) : zetes_t :=
  let r := stack_emplace c
  if r.2 then
    let a := alloc r.1 (value.length + 1)
    match a.2 with
    | some _ => set_top a.1 (.vString value)
    | none => a.1
  else r.1

/-- zetes_push_new_array: allocates an empty node-list header. -/
def zetes_push_new_array (c : zetes_t) : zetes_t :=
  let r := stack_emplace c
  if r.2 then
    let a := alloc r.1 sizeof_array
    match a.2 with
    | some _ =>
      set_top { a.1 with arrays := a.1.arrays ++ [[]] } (.vArray a.1.arrays.length)
    | none => a.1
  else r.1

/-- zetes_push_new_object. -/
def zetes_push_new_object (c : zetes_t) : zetes_t :=
  let r := stack_emplace c
  if r.2 then
    let a := alloc r.1 sizeof_object
    match a.2 with
    | some _ =>
      set_top { a.1 with objects := a.1.objects ++ [[]] } (.vObject a.1.objects.length)
    | none => a.1
  else r.1

/-- zetes_type: validates a depth of one (which latches STACK_EMPTY on
an OK context with an empty stack) and reports the tag of the top
value, NONE otherwise. -/
def zetes_type (c : zetes_t) : zetes_t × zetes_type_t :=
  let v := stack_validate c 1
  if v.2 then (v.1, typeOf v.1.stack.headI) else (v.1, .NONE)

/-- zetes_pop. -/
def zetes_pop (c : zetes_t) : zetes_t :=
  let v := stack_validate c 1
  if v.2 then { v.1 with stack := v.1.stack.tail } else v.1

/-- zetes_pop_null. -/
def zetes_pop_null (c : zetes_t) : zetes_t :=
  let v := stack_validate c 1
  if v.2 then
    let t := type_validate v.1 .NULL (typeOf v.1.stack.headI)
    if t.2 then { t.1 with stack := t.1.stack.tail } else t.1
  else v.1

/-- zetes_pop_bool. -/
def zetes_pop_bool (c : zetes_t) : zetes_t × Bool :=
  let v := stack_validate c 1
  if v.2 then
    let t := type_validate v.1 .BOOL (typeOf v.1.stack.headI)
    if t.2 then
      ({ t.1 with stack := t.1.stack.tail },
       match t.1.stack.headI with
       | .vBool b => b
       | _ => false)
    else (t.1, false)
  else (v.1, false)

/-- zetes_pop_number. -/
def zetes_pop_number (c : zetes_t) : zetes_t × Rat :=
  let v := stack_validate c 1
  if v.2 then
    let t := type_validate v.1 .NUMBER (typeOf v.1.stack.headI)
    if t.2 then
      ({ t.1 with stack := t.1.stack.tail },
       match t.1.stack.headI with
       | .vNumber x => x
       | _ => 0)
    else (t.1, 0)
  else (v.1, 0)

/-- zetes_pop_string: returns the string bytes, or none for the C NULL
return. -/
def zetes_pop_string (c : zetes_t) : zetes_t × Option (List Nat) :=
  let v := stack_validate c 1
  if v.2 then
    let t := type_validate v.1 .STRING (typeOf v.1.stack.headI)
    if t.2 then
      ({ t.1 with stack := t.1.stack.tail },
       match t.1.stack.headI with
       | .vString s => some s
       | _ => none)
    else (t.1, none)
  else (v.1, none)

/-- zetes_array_size: counts the nodes by traversal. -/
def zetes_array_size (c : zetes_t) : zetes_t × Nat :=
  let v := stack_validate c 1
  if v.2 then
    let t := type_validate v.1 .ARRAY (typeOf v.1.stack.headI)
    if t.2 then
      (t.1,
       match t.1.stack.headI with
       | .vArray id => (t.1.arrays.getD id []).length
       | _ => 0)
    else (t.1, 0)
  else (v.1, 0)

/-- zetes_array_index.  NOTE: the traversal loop in the source,

  while (element && index) { index--; }

decrements index without ever advancing element, so after the loop
element is still the first node whenever the array is non-empty,
independently of index; INDEX_OUT_OF_BOUNDS is reached only when the
array is empty.  The translation reproduces that behaviour. -/
def zetes_array_index (c : zetes_t) (index : Nat) : zetes_t :=
  let _ := index
  let v := stack_validate c 1
  if v.2 then
    let t := type_validate v.1 .ARRAY (typeOf v.1.stack.headI)
    if t.2 then
      let arr :=
        match t.1.stack.headI with
        | .vArray id => t.1.arrays.getD id []
        | _ => []
      match arr with
      | [] => set_error t.1 .INDEX_OUT_OF_BOUNDS
      | e :: _ =>
        let r := stack_emplace t.1
        if r.2 then set_top r.1 e else r.1
    else t.1
  else v.1

/-- zetes_array_append: element is the top slot, the array the one
below; on success the element node is allocated, linked at the tail and
the element slot popped.  On allocation failure nothing is popped. -/
def zetes_array_append (c : zetes_t) : zetes_t :=
  let v := stack_validate c 2
  if v.2 then
    let av := v.1.stack.tail.headI
    let t := type_validate v.1 .ARRAY (typeOf av)
    if t.2 then
      match av with
      | .vArray id =>
        let a := alloc t.1 sizeof_array_element
        match a.2 with
        | some _ =>
          { a.1 with
            stack := a.1.stack.tail
            arrays := a.1.arrays.set id (a.1.arrays.getD id [] ++ [a.1.stack.headI]) }
        | none => a.1
      | _ => t.1
    else t.1
  else v.1

/-- zetes_object_size.  NOTE: the source validates the top of the stack
against ZETES_TYPE_ARRAY, not ZETES_TYPE_OBJECT, and then reads the
pointer through the _object union member.  zetes_array_t and
zetes_object_t have identical layout and the next link is the first
field of both node types, so on an Array top the traversal counts the
array nodes; on an Object top it fails with TYPE_MISMATCH. -/
def zetes_object_size (c : zetes_t) : zetes_t × Nat :=
  let v := stack_validate c 1
  if v.2 then
    let t := type_validate v.1 .ARRAY (typeOf v.1.stack.headI)
    if t.2 then
      (t.1,
       match t.1.stack.headI with
       | .vArray id => (t.1.arrays.getD id []).length
       | _ => 0)
    else (t.1, 0)
  else (v.1, 0)

/-- zetes_object_index.  NOTE: like zetes_object_size the source
validates the top against ZETES_TYPE_ARRAY, so it only ever proceeds on
an Array top.  There the traversal (which does advance, member =
member->next) walks the array nodes through the shared next-link
offset, and the member value and key reads reinterpret array-element
memory; those reads yield unspecified bytes and are modelled as vUndef
slots.  No theorem depends on the contents pushed by this branch. -/
def zetes_object_index (c : zetes_t) (index : Nat) : zetes_t :=
  let v := stack_validate c 1
  if v.2 then
    let t := type_validate v.1 .ARRAY (typeOf v.1.stack.headI)
    if t.2 then
      let nodes :=
        match t.1.stack.headI with
        | .vArray id => (t.1.arrays.getD id []).length
        | _ => 0
      if index < nodes then
        let r := stack_emplace t.1
        let r1 := if r.2 then set_top r.1 .vUndef else r.1
        let r2 := stack_emplace r1
        if r2.2 then set_top r2.1 .vUndef else r2.1
      else set_error t.1 .INDEX_OUT_OF_BOUNDS
    else t.1
  else v.1

/-- zetes_object_has: linear scan by strcmp.  The keys stored in the
heap and the key argument are NUL-free byte lists, so strcmp equality
is list equality. -/
def zetes_object_has (c : zetes_t) (key : List Nat) : zetes_t × Bool :=
  let v := stack_validate c 1
  if v.2 then
    let t := type_validate v.1 .OBJECT (typeOf v.1.stack.headI)
    if t.2 then
      let mems :=
        match t.1.stack.headI with
        | .vObject id => t.1.objects.getD id []
        | _ => []
      (t.1, mems.any (fun m => m.1 == key))
    else (t.1, false)
  else (v.1, false)

/-- zetes_object_get: pushes the value of the first member whose key
matches, or latches KEY_NOT_FOUND. -/
def zetes_object_get (c : zetes_t) (key : List Nat) : zetes_t :=
  let v := stack_validate c 1
  if v.2 then
    let t := type_validate v.1 .OBJECT (typeOf v.1.stack.headI)
    if t.2 then
      let mems :=
        match t.1.stack.headI with
        | .vObject id => t.1.objects.getD id []
        | _ => []
      match mems.find? (fun m => m.1 == key) with
      | some m =>
        let r := stack_emplace t.1
        if r.2 then set_top r.1 m.2 else r.1
      | none => set_error t.1 .KEY_NOT_FOUND
    else t.1
  else v.1

/-- Overwriting the first member holding a key, preserving its
position; the scan in the source stops at the first match. -/
def overwrite_first (mems : List (List Nat × zetes_value_t)) (key : List Nat)
    (v : zetes_value_t) : List (List Nat × zetes_value_t) :=
  match mems with
  | [] => []
  | m :: rest =>
    if m.1 == key then (m.1, v) :: rest else m :: overwrite_first rest key v

/-- zetes_object_set: value on top, object below.  An existing key is
overwritten in place (and the value popped); a new key is copied into
the arena (strlen+1 bytes), then a member node is allocated and linked
at the tail.  On either allocation failure nothing is popped. -/
def zetes_object_set (c : zetes_t) (key : List Nat) : zetes_t :=
  let v := stack_validate c 2
  if v.2 then
    let ov := v.1.stack.tail.headI
    let t := type_validate v.1 .OBJECT (typeOf ov)
    if t.2 then
      match ov with
      | .vObject id =>
        let mems := t.1.objects.getD id []
        if (mems.find? (fun m => m.1 == key)).isSome then
          { t.1 with
            stack := t.1.stack.tail
            objects := t.1.objects.set id (overwrite_first mems key t.1.stack.headI) }
        else
          let a := alloc t.1 (key.length + 1)
          match a.2 with
          | some _ =>
            let b := alloc a.1 sizeof_object_member
            match b.2 with
            | some _ =>
              { b.1 with
                stack := b.1.stack.tail
                objects := b.1.objects.set id
                  (b.1.objects.getD id [] ++ [(key, b.1.stack.headI)]) }
            | none => b.1
          | none => a.1
      | _ => t.1
    else t.1
  else v.1

/-- object_set_with_interned_key: the reader variant that reuses the
already arena-resident key bytes instead of copying them. -/
def object_set_with_interned_key (c : zetes_t) (key : List Nat) : zetes_t :=
  let v := stack_validate c 2
  if v.2 then
    let ov := v.1.stack.tail.headI
    let t := type_validate v.1 .OBJECT (typeOf ov)
    if t.2 then
      match ov with
      | .vObject id =>
        let mems := t.1.objects.getD id []
        if (mems.find? (fun m => m.1 == key)).isSome then
          { t.1 with
            stack := t.1.stack.tail
            objects := t.1.objects.set id (overwrite_first mems key t.1.stack.headI) }
        else
          let b := alloc t.1 sizeof_object_member
          match b.2 with
          | some _ =>
            { b.1 with
              stack := b.1.stack.tail
              objects := b.1.objects.set id
                (b.1.objects.getD id [] ++ [(key, b.1.stack.headI)]) }
          | none => b.1
      | _ => t.1
    else t.1
  else v.1

/-! Concrete contexts built purely from the public operations, used to
evaluate the engine on explicit inputs. -/

/-- A context whose top of stack is an Array holding [false, true], in
that insertion order, built with the public operations. -/
def ctx_array_two_bools : zetes_t :=
  zetes_array_append
    (zetes_push_bool
      (zetes_array_append
        (zetes_push_bool (zetes_push_new_array (zetes_init 2 0 256)) false))
      true)

/-- A context whose top of stack is an Object with the single member
a -> null, built with the public operations. -/
def ctx_object_one_member : zetes_t :=
  zetes_object_set (zetes_push_null (zetes_push_new_object (zetes_init 2 0 256))) [97]

/-- Claim C2: the claim says zetes_array_index(i) pushes a copy of the
i-th element in insertion order and fails with INDEX_OUT_OF_BOUNDS for
i >= n.  The code does neither: its traversal loop never advances the
node pointer, so on the two-element array [false, true] both index 1
and the out-of-range index 2 push a copy of the FIRST element (false)
and leave the result OK. -/
theorem zetes_array_index_ignores_index :
    ctx_array_two_bools.result = .OK ∧
    ctx_array_two_bools.stack = [.vArray 0] ∧
    (zetes_array_size ctx_array_two_bools).2 = 2 ∧
    ctx_array_two_bools.arrays.getD 0 [] = [.vBool false, .vBool true] ∧
    (zetes_array_index ctx_array_two_bools 1).stack = [.vBool false, .vArray 0] ∧
    (zetes_array_index ctx_array_two_bools 1).result = .OK ∧
    (zetes_array_index ctx_array_two_bools 2).stack = [.vBool false, .vArray 0] ∧
    (zetes_array_index ctx_array_two_bools 2).result = .OK := by
  decide

/-- Claim C3: the claim says that after zetes_reset the arena cursor is
positioned exactly as immediately after initialization, so allocations
never overlap the operand-stack storage.  In the code zetes_init leaves
the cursor at buffer + 32 (past the stack storage it carved out for
depth 2), but zetes_reset rewinds the cursor to buffer_begin itself:
the status and stack are indeed clean, yet the very first allocation
after a reset is handed out at address 0, inside the stack storage
[0, 32). -/
theorem zetes_reset_rewinds_cursor_below_stack :
    (zetes_init 2 0 128).buffer_ptr = 32 ∧
    (zetes_init 2 0 128).stack_begin = 0 ∧
    stack_end_addr (zetes_init 2 0 128) = 32 ∧
    (zetes_reset (zetes_init 2 0 128)).result = .OK ∧
    (zetes_reset (zetes_init 2 0 128)).stack = [] ∧
    zetes_reset (zetes_reset (zetes_init 2 0 128)) = zetes_reset (zetes_init 2 0 128) ∧
    (zetes_reset (zetes_init 2 0 128)).buffer_ptr = 0 ∧
    (zetes_reset (zetes_init 2 0 128)).buffer_ptr ≠ (zetes_init 2 0 128).buffer_ptr ∧
    (alloc (zetes_reset (zetes_init 2 0 128)) sizeof_array).2 = some 0 := by
  decide

/-- Claim C5: the claim says zetes_object_size and zetes_object_index
succeed (no TYPE_MISMATCH) exactly when the top of the stack is an
Object.  The code validates the top against ZETES_TYPE_ARRAY instead:
on an Object top both latch TYPE_MISMATCH (size returns 0, index pushes
nothing), while on an Array top zetes_object_size proceeds without
error and reports the array node count. -/
theorem zetes_object_size_index_validate_array_tag :
    ctx_object_one_member.result = .OK ∧
    typeOf ctx_object_one_member.stack.headI = .OBJECT ∧
    (zetes_object_size ctx_object_one_member).2 = 0 ∧
    (zetes_object_size ctx_object_one_member).1.result = .TYPE_MISMATCH ∧
    (zetes_object_index ctx_object_one_member 0).result = .TYPE_MISMATCH ∧
    (zetes_object_index ctx_object_one_member 0).stack = ctx_object_one_member.stack ∧
    typeOf ctx_array_two_bools.stack.headI = .ARRAY ∧
    (zetes_object_size ctx_array_two_bools).1.result = .OK ∧
    (zetes_object_size ctx_array_two_bools).2 = 2 := by
  decide

/-- Claim C9: the claim says the arena cursor never exceeds the arena
end and every successful alloc leaves the cursor at or before
buffer_end.  alloc aligns the cursor up AFTER its bounds check, so with
a 33-byte buffer the one-byte allocation made by pushing the empty
string succeeds and leaves the cursor at 40, beyond buffer_end = 33;
the next alloc then computes its free space with a size_t subtraction
that underflows, so a 101-byte allocation also succeeds (entirely
outside the buffer) with the result still OK and the cursor at 144. -/
theorem alloc_cursor_overrun_bug :
    (zetes_init 2 0 33).result = .OK ∧
    (zetes_init 2 0 33).buffer_end = 33 ∧
    (zetes_init 2 0 33).buffer_ptr = 32 ∧
    (zetes_push_string (zetes_init 2 0 33) []).result = .OK ∧
    (zetes_push_string (zetes_init 2 0 33) []).buffer_ptr = 40 ∧
    (zetes_push_string (zetes_init 2 0 33) []).buffer_end <
      (zetes_push_string (zetes_init 2 0 33) []).buffer_ptr ∧
    (zetes_push_string (zetes_push_string (zetes_init 2 0 33) [])
      (List.replicate 100 97)).result = .OK ∧
    (zetes_push_string (zetes_push_string (zetes_init 2 0 33) [])
      (List.replicate 100 97)).buffer_ptr = 144 := by
  decide

/-- set_error never touches the stack. -/
@[simp] theorem set_error_stack (c : zetes_t) (r : zetes_result_t) :
    (set_error c r).stack = c.stack := by
  unfold set_error; split <;> rfl

/-- set_error never touches the arena cursor. -/
@[simp] theorem set_error_buffer_ptr (c : zetes_t) (r : zetes_result_t) :
    (set_error c r).buffer_ptr = c.buffer_ptr := by
  unfold set_error; split <;> rfl

/-- Claim C6 counterexample: the claim says a push_string that fails
with OUT_OF_MEMORY leaves the stack pointer and contents exactly as
before the call.  With 16 free arena bytes, pushing a 16-byte string
needs 17 and fails, but stack_emplace has already decremented the stack
pointer, so one (unwritten) slot remains on the stack: the stack is no
longer empty. -/
theorem zetes_push_string_oom_keeps_slot_counterexample :
    (zetes_init 2 0 48).result = .OK ∧
    (zetes_init 2 0 48).stack = [] ∧
    space (zetes_init 2 0 48) = 16 ∧
    (zetes_push_string (zetes_init 2 0 48) (List.replicate 16 97)).result =
      .OUT_OF_MEMORY ∧
    (zetes_push_string (zetes_init 2 0 48) (List.replicate 16 97)).stack ≠ [] ∧
    (zetes_push_string (zetes_init 2 0 48) (List.replicate 16 97)).buffer_ptr =
      (zetes_init 2 0 48).buffer_ptr := by
  decide

/-- Claim C6, amended: when zetes_push_string on an OK context with a
free stack slot hits insufficient arena space, OUT_OF_MEMORY is latched
and the arena cursor is unchanged, but the slot already reserved by
stack_emplace stays on the stack with unwritten contents — the stack
pointer is one slot lower than before the call (nothing of this is
observable through the API before the next reset, because the latched
error turns every subsequent operation into a no-op). -/
theorem zetes_push_string_oom_amended (c : zetes_t) (s : List Nat)
    (hok : c.result = .OK) (hroom : c.stack.length < c.stack_depth)
    (hsp : space c < s.length + 1) :
    zetes_push_string c s =
      { c with result := .OUT_OF_MEMORY, stack := .vUndef :: c.stack } := by
  have hsp2 : (c.buffer_end + SIZE_MOD - c.buffer_ptr) % SIZE_MOD < s.length + 1 := by
    simpa [space] using hsp
  simp [zetes_push_string, stack_emplace, ok, hok, hroom, alloc, space, set_error,
    hsp2]

/-- Witness for the amended C6 theorem at a concrete context. -/
theorem zetes_push_string_oom_amended_witness :
    ((zetes_init 2 0 48).result = .OK ∧
     (zetes_init 2 0 48).stack.length < (zetes_init 2 0 48).stack_depth ∧
     space (zetes_init 2 0 48) < (List.replicate 16 97).length + 1) ∧
    zetes_push_string (zetes_init 2 0 48) (List.replicate 16 97) =
      { (zetes_init 2 0 48) with
        result := .OUT_OF_MEMORY,
        stack := .vUndef :: (zetes_init 2 0 48).stack } :=
  ⟨⟨by decide, by decide, by decide⟩,
   zetes_push_string_oom_amended (zetes_init 2 0 48) (List.replicate 16 97)
     (by decide) (by decide) (by decide)⟩

/-- Claim C7 counterexample: the claim says zetes_type leaves the
status unchanged in every case and zetes_object_has never mutates the
status.  On an OK context with an empty stack, zetes_type returns NONE
but latches STACK_EMPTY; on an OK context whose top is Null,
zetes_object_has returns false but latches TYPE_MISMATCH. -/
theorem zetes_type_object_has_latch_counterexample :
    (zetes_init 2 0 128).result = .OK ∧
    (zetes_init 2 0 128).stack = [] ∧
    (zetes_type (zetes_init 2 0 128)).2 = .NONE ∧
    (zetes_type (zetes_init 2 0 128)).1.result = .STACK_EMPTY ∧
    (zetes_object_has (zetes_push_null (zetes_init 2 0 128)) [107]).1.result =
      .TYPE_MISMATCH ∧
    (zetes_object_has (zetes_push_null (zetes_init 2 0 128)) [107]).2 = false := by
  decide

/-- Claim C7, amended: zetes_type reports the tag of the top value and
leaves the context unchanged when the stack is non-empty, and returns
NONE otherwise — but on an OK context with an empty stack it latches
STACK_EMPTY (the query does fail the context); on an already-failed
context it is a pure no-op.  zetes_object_has never mutates the stack,
and on an OK context whose top is an Object it reports key presence
(byte equality, first match) leaving the status unchanged; on an OK
empty stack it latches STACK_EMPTY, and on an OK non-Object top it
latches TYPE_MISMATCH, returning false in both cases. -/
theorem zetes_type_object_has_amended (c : zetes_t) :
    (c.result = .OK → c.stack ≠ [] → zetes_type c = (c, typeOf c.stack.headI)) ∧
    (c.result = .OK → c.stack = [] →
      zetes_type c = ({ c with result := .STACK_EMPTY }, .NONE)) ∧
    (c.result ≠ .OK → zetes_type c = (c, .NONE)) ∧
    (∀ k, ((zetes_object_has c k).1).stack = c.stack) ∧
    (∀ k id, c.result = .OK → c.stack ≠ [] → c.stack.headI = .vObject id →
      zetes_object_has c k = (c, (c.objects.getD id []).any (fun m => m.1 == k))) ∧
    (∀ k, c.result = .OK → c.stack = [] →
      zetes_object_has c k = ({ c with result := .STACK_EMPTY }, false)) ∧
    (∀ k, c.result = .OK → c.stack ≠ [] → typeOf c.stack.headI ≠ .OBJECT →
      zetes_object_has c k = ({ c with result := .TYPE_MISMATCH }, false)) := by
  refine ⟨?_, ?_, ?_, ?_, ?_, ?_, ?_⟩
  · intro h hne
    have h1 : 1 ≤ c.stack.length := List.length_pos.mpr hne
    simp [zetes_type, stack_validate, ok, h, h1]
  · intro h he
    simp [zetes_type, stack_validate, ok, h, he, set_error]
  · intro h
    simp [zetes_type, stack_validate, ok, h]
  · intro k
    by_cases hok2 : ok c
    · by_cases h1 : 1 ≤ c.stack.length
      · by_cases hobj : zetes_type_t.OBJECT = typeOf c.stack.headI
        · simp [zetes_object_has, stack_validate, type_validate, hok2, h1, hobj]
        · simp [zetes_object_has, stack_validate, type_validate, hok2, h1, hobj]
      · simp [zetes_object_has, stack_validate, hok2, h1]
    · simp [zetes_object_has, stack_validate, hok2]
  · intro k id h hne htop
    have h1 : 1 ≤ c.stack.length := List.length_pos.mpr hne
    simp [zetes_object_has, stack_validate, type_validate, ok, h, h1, htop, typeOf]
  · intro k h he
    simp [zetes_object_has, stack_validate, ok, h, he, set_error]
  · intro k h hne hty
    have h1 : 1 ≤ c.stack.length := List.length_pos.mpr hne
    have hobj : ¬ (zetes_type_t.OBJECT = typeOf c.stack.headI) := by
      intro hh
      exact hty hh.symm
    simp [zetes_object_has, stack_validate, type_validate, ok, h, h1, hobj,
      set_error]

/-- Witness for the amended C7 theorem at concrete contexts. -/
theorem zetes_type_object_has_amended_witness :
    ((zetes_init 2 0 128).result = .OK ∧ (zetes_init 2 0 128).stack = []) ∧
    zetes_type (zetes_init 2 0 128) =
      ({ zetes_init 2 0 128 with result := .STACK_EMPTY }, .NONE) :=
  ⟨⟨by decide, by decide⟩,
   (zetes_type_object_has_amended (zetes_init 2 0 128)).2.1 (by decide) (by decide)⟩

/-! ## Writer

The output callback is abstracted as a transport that accepts every
byte: write_all in the source retries short writes until the callback
has consumed everything, so for a non-failing callback its effect is
pure concatenation.  The callback-failure path (negative return,
WRITE_ERROR) is not exercised by any claim settled here. -/

/-- The uppercase hexadecimal digit table HEX_LUT. -/
def hex_digit (n : Nat) : Nat :=
  if n < 10 then 48 + n else 55 + n

/-- write_escape_code: backslash, u, then four uppercase hex digits of
the 16-bit code. -/
def escape_code_bytes (code : Nat) : List Nat :=
  [92, 117, hex_digit (code / 4096 % 16), hex_digit (code / 256 % 16),
   hex_digit (code / 16 % 16), hex_digit (code % 16)]

/-- escaped: the bytes the writer does not copy verbatim — control
bytes, bytes above tilde, forward slash, double quote, backslash, and
also byte 39 (the single quote). -/
def escaped (c : Nat) : Bool :=
  decide (c < 32) || decide (c > 126) || (c == 47) || (c == 34) ||
    (c == 92) || (c == 39)

/-- The two-character escapes of the write_string switch: double quote,
backslash, forward slash, backspace, form feed, newline, carriage
return, tab. -/
def esc_bytes (c : Nat) : Option (List Nat) :=
  if c = 34 then some [92, 34]
  else if c = 92 then some [92, 92]
  else if c = 47 then some [92, 47]
  else if c = 8 then some [92, 98]
  else if c = 12 then some [92, 102]
  else if c = 10 then some [92, 110]
  else if c = 13 then some [92, 114]
  else if c = 9 then some [92, 116]
  else none

/-- The TRAILING table of decode_utf8 as a function of the lead byte. -/
def utf8_trailing (b : Nat) : Nat :=
  if b < 192 then 0
  else if b < 224 then 1
  else if b < 240 then 2
  else if b < 248 then 3
  else if b < 252 then 4
  else 5

/-- The OFFSETS table of decode_utf8. -/
def utf8_offset (t : Nat) : Nat :=
  [0, 12416, 925824, 63447168, 4194836608, 2181570688].getD t 0

/-- decode_utf8: returns (length consumed, decoded 16-bit code) or none
for the -1 failure (not enough bytes for the sequence).  The code
accumulator in the source is a uint16, so every add and shift wraps
modulo 2^16, as does the final offset subtraction; the switch only
accumulates bytes for trailing counts 0..3, leaving the accumulator 0
for counts 4 and 5.  On empty input the source returns length 0 with
the code untouched (modelled as 0); write_string never reaches that
case. -/
def decode_utf8 (input : List Nat) : Option (Nat × Nat) :=
  match input with
  | [] => some (0, 0)
  | b0 :: rest =>
    let t := utf8_trailing b0
    if input.length ≤ t then none
    else
      let step : Nat → Nat → Nat := fun acc b => (acc + b) % 65536 * 64 % 65536
      let fin : Nat → Nat → Nat := fun acc b => (acc + b) % 65536
      let cp :=
        if t = 0 then fin 0 b0
        else if t = 1 then fin (step 0 b0) (rest.getD 0 0)
        else if t = 2 then fin (step (step 0 b0) (rest.getD 0 0)) (rest.getD 1 0)
        else if t = 3 then
          fin (step (step (step 0 b0) (rest.getD 0 0)) (rest.getD 1 0)) (rest.getD 2 0)
        else 0
      some (t + 1, (cp + 65536 - utf8_offset t % 65536) % 65536)

/-- The scan loop of write_string: copy the maximal run of unescaped
bytes verbatim, then emit the escape for the next byte (two-character
escape from the switch, otherwise decode the UTF-8 sequence and emit a
six-character escape), and repeat.  none is the C false return (a
malformed UTF-8 sequence).  The fuel only bounds the number of loop
iterations; fuel = remaining length + 1 always suffices because every
iteration with a non-empty remainder consumes at least one byte. -/
def write_string_loop : Nat → List Nat → List Nat → Option (List Nat)
  | 0, _, _ => none
  | fuel + 1, s, out =>
    let run := s.takeWhile (fun c => !escaped c)
    let rest := s.drop run.length
    let out2 := out ++ run
    match rest with
    | [] => some (out2 ++ [34])
    | c :: _ =>
      match esc_bytes c with
      | some e => write_string_loop fuel (rest.drop 1) (out2 ++ e)
      | none =>
        match decode_utf8 rest with
        | none => none
        | some (len, code) =>
          write_string_loop fuel (rest.drop len) (out2 ++ escape_code_bytes code)

/-- write_string: opening quote, escaped body, closing quote, appended
to the output accumulated so far.  The argument is the byte sequence of
the NUL-terminated C string (strlen bytes, NUL-free). -/
def write_string_opt (s : List Nat) (out : List Nat) : Option (List Nat) :=
  write_string_loop (s.length + 1) s (out ++ [34])

/-- Claim C8 counterexample: the claim says every printable ASCII byte
other than the eight two-character escapes — for example the single
quote — is copied to the output verbatim.  The escaped() predicate in
the source also contains the single quote (byte 39), so writing the
one-character string consisting of a single quote emits the
six-character escape u0027 rather than the byte itself. -/
theorem write_string_apostrophe_counterexample :
    write_string_opt [39] [] = some [34, 92, 117, 48, 48, 50, 55, 34] ∧
    write_string_opt [39] [] ≠ some [34, 39, 34] := by
  decide

/-- The per-byte rendering of an ASCII byte by write_string: one of the
eight two-character escapes; verbatim for every other printable ASCII
byte except the single quote; a six-character uppercase hex escape for
control bytes, DEL and the single quote. -/
def ascii_escape (c : Nat) : List Nat :=
  match esc_bytes c with
  | some e => e
  | none =>
    if 32 ≤ c ∧ c ≤ 126 ∧ c ≠ 39 then [c]
    else escape_code_bytes c

/-- Claim C8, amended: the writer emits the two-character escapes
exactly for the eight listed bytes; it emits a six-character uppercase
hex escape for bytes outside the directly-representable escape set,
above ASCII, AND for the single quote (byte 39, rendered u0027); every
other printable ASCII byte is copied verbatim, and a run of bytes none
of which is in the escaped set is copied verbatim as a whole. -/
theorem write_string_ascii_amended :
    (∀ c, c < 128 → 0 < c →
      write_string_opt [c] [] = some ([34] ++ ascii_escape c ++ [34])) ∧
    (∀ s : List Nat, (∀ b ∈ s, escaped b = false) →
      write_string_opt s [] = some ([34] ++ s ++ [34])) := by
  constructor
  · decide
  · intro s hs
    have hrun : s.takeWhile (fun b => !escaped b) = s := by
      rw [List.takeWhile_eq_self_iff]
      intro b hb
      simp [hs b hb]
    unfold write_string_opt
    simp [write_string_loop, hrun, List.drop_length]

/-- Witness for the amended C8 theorem: the single quote (byte 39) is
in range and is rendered as the six-byte escape, and an unescaped run
is copied verbatim. -/
theorem write_string_ascii_amended_witness :
    ((39 : Nat) < 128 ∧ 0 < (39 : Nat)) ∧
    write_string_opt [39] [] = some ([34] ++ ascii_escape 39 ++ [34]) :=
  ⟨⟨by decide, by decide⟩, write_string_ascii_amended.1 39 (by decide) (by decide)⟩

/-- write_value and the container walks, mirroring write_array,
write_member, write_object.  The number formatter fmt stands for the
snprintf %.9g formatting of the native double in write_number: that is
platform libc floating-point behaviour and does not translate to the
embedding, so the walk is parametrized by it and no theorem depends on
its output.  The fuel bounds the recursion depth through the heaps (the
node graphs built by the public operations are acyclic); fuel
exhaustion returns none and is unreachable for adequate fuel.  A vUndef
slot reaches the default branch of the switch, which latches
INVALID_STACK. -/
def write_sep_list
    (step : zetes_t → zetes_value_t → List Nat → zetes_t × Option (List Nat))
    (c : zetes_t) (elems : List zetes_value_t) (out : List Nat) (first : Bool) :
    zetes_t × Option (List Nat) :=
  match elems with
  | [] => (c, some out)
  | e :: rest =>
    let out1 := if first then out else out ++ [44]
    match step c e out1 with
    | (c1, some o1) => write_sep_list step c1 rest o1 false
    | (c1, none) => (c1, none)

/-- The member walk of write_object: key string, colon, value, comma
separated. -/
def write_mem_list
    (step : zetes_t → zetes_value_t → List Nat → zetes_t × Option (List Nat))
    (c : zetes_t) (mems : List (List Nat × zetes_value_t)) (out : List Nat)
    (first : Bool) : zetes_t × Option (List Nat) :=
  match mems with
  | [] => (c, some out)
  | m :: rest =>
    let out1 := if first then out else out ++ [44]
    match write_string_opt m.1 out1 with
    | none => (c, none)
    | some o2 =>
      match step c m.2 (o2 ++ [58]) with
      | (c1, some o4) => write_mem_list step c1 rest o4 false
      | (c1, none) => (c1, none)

/-- write_value. -/
def write_value (fmt : Rat → List Nat) :
    Nat → zetes_t → zetes_value_t → List Nat → zetes_t × Option (List Nat)
  | 0, c, _, _ => (c, none)
  | fuel + 1, c, v, out =>
    match v with
    | .vNull => (c, some (out ++ [110, 117, 108, 108]))
    | .vBool true => (c, some (out ++ [116, 114, 117, 101]))
    | .vBool false => (c, some (out ++ [102, 97, 108, 115, 101]))
    | .vNumber x => (c, some (out ++ fmt x))
    | .vString s => (c, write_string_opt s out)
    | .vArray id =>
      match write_sep_list (write_value fmt fuel) c (c.arrays.getD id [])
          (out ++ [91]) true with
      | (c1, some o) => (c1, some (o ++ [93]))
      | (c1, none) => (c1, none)
    | .vObject id =>
      match write_mem_list (write_value fmt fuel) c (c.objects.getD id [])
          (out ++ [123]) true with
      | (c1, some o) => (c1, some (o ++ [125]))
      | (c1, none) => (c1, none)
    | .vUndef => (set_error c .INVALID_STACK, none)

/-- zetes_write: requires a non-empty stack (stack_validate latches
STACK_EMPTY otherwise) and serializes the top value without popping it;
returns the context, the bytes pushed through the callback (none when
the walk aborted) and the resulting status. -/
def zetes_write (fmt : Rat → List Nat) (fuel : Nat) (c : zetes_t) :
    zetes_t × Option (List Nat) × zetes_result_t :=
  if ok c then
    let v := stack_validate c 1
    if v.2 then
      let r := write_value fmt fuel v.1 v.1.stack.headI []
      (r.1, r.2, r.1.result)
    else (v.1, none, v.1.result)
  else (c, none, c.result)

/-! ## Reader

The input callback is abstracted as the byte sequence a non-failing
transport delivers: next_char in the source refills the temp buffer
from the callback and returns the bytes of the stream in order,
returning 0 once a zero-length read signals end of input (and 0 for a
literal NUL byte in the stream, indistinguishably).  The
negative-return path (READ_ERROR) is not exercised by any claim
settled here. -/

inductive token_type_t where
  | UNDEFINED
  | END_OF_INPUT
  | KEY_VAL_SEPARATOR
  | COMMA
  | OBJECT_OPEN
  | OBJECT_CLOSE
  | ARRAY_OPEN
  | ARRAY_CLOSE
  | LITERAL
  deriving DecidableEq

/-- The reader state rstate_t: the context, the remaining input bytes,
the one-character putback slot (0 meaning empty, exactly as the C uses
the NUL character as the empty marker) and the lookahead token. -/
structure rstate_t where
  ctx : zetes_t
  chars : List Nat
  prev_char : Nat
  token_type : token_type_t
  token_value : zetes_value_t
  deriving DecidableEq

/-- is_end_of_input. -/
def is_end_of_input (c : Nat) : Bool :=
  c == 0

/-- is_whitespace. -/
def is_whitespace (c : Nat) : Bool :=
  (c == 32) || (c == 10) || (c == 13) || (c == 9)

/-- is_control.  The C predicate is c >= 0 && c < 32 on a signed char,
so bytes 128..255 (negative as signed char) are not control; on the
byte range 0..255 that agrees with c < 32. -/
def is_control (c : Nat) : Bool :=
  decide (c < 32)

/-- is_quote. -/
def is_quote (c : Nat) : Bool :=
  c == 34

/-- is_escape. -/
def is_escape (c : Nat) : Bool :=
  c == 92

/-- is_digit. -/
def is_digit (c : Nat) : Bool :=
  decide (48 ≤ c) && decide (c ≤ 57)

/-- is_zero. -/
def is_zero (c : Nat) : Bool :=
  c == 48

/-- is_digit_1_to_9. -/
def is_digit_1_to_9 (c : Nat) : Bool :=
  decide (49 ≤ c) && decide (c ≤ 57)

/-- is_lower_hex. -/
def is_lower_hex (c : Nat) : Bool :=
  decide (97 ≤ c) && decide (c ≤ 102)

/-- is_upper_hex. -/
def is_upper_hex (c : Nat) : Bool :=
  decide (65 ≤ c) && decide (c ≤ 70)

/-- is_minus. -/
def is_minus (c : Nat) : Bool :=
  c == 45

/-- is_plus. -/
def is_plus (c : Nat) : Bool :=
  c == 43

/-- is_exponent_delimiter. -/
def is_exponent_delimiter (c : Nat) : Bool :=
  (c == 101) || (c == 69)

/-- is_decimal_point. -/
def is_decimal_point (c : Nat) : Bool :=
  c == 46

/-- next_char: the putback slot first, then the next byte of the
stream; an exhausted stream yields 0 (the C refill gets a zero-length
read). -/
def next_char (s : rstate_t) : rstate_t × Nat :=
  if s.prev_char ≠ 0 then ({ s with prev_char := 0 }, s.prev_char)
  else
    match s.chars with
    | [] => (s, 0)
    | c :: rest => ({ s with chars := rest }, c)

/-- putback_char. -/
def putback_char (s : rstate_t) (c : Nat) : rstate_t :=
  { s with prev_char := c }

/-- The observable value of a C string given the bytes written to its
storage: everything up to the first NUL terminator. -/
def cstr (bs : List Nat) : List Nat :=
  bs.takeWhile (fun b => b ≠ 0)

/-- append_string: appends one byte at the arena cursor, or latches
OUT_OF_MEMORY when the cursor has reached the arena end (the byte is
then dropped; the source keeps lexing with the error latched).  The
accumulator carries the bytes written so far. -/
def append_string (s : rstate_t) (acc : List Nat) (ch : Nat) :
    rstate_t × List Nat :=
  if s.ctx.buffer_ptr ≥ s.ctx.buffer_end then
    ({ s with ctx := set_error s.ctx .OUT_OF_MEMORY }, acc)
  else
    ({ s with ctx := { s.ctx with buffer_ptr := s.ctx.buffer_ptr + 1 } }, acc ++ [ch])

/-- The two-character escape decoding of the lex_string switch. -/
def esc_char (c : Nat) : Option Nat :=
  if c = 34 then some 34
  else if c = 92 then some 92
  else if c = 47 then some 47
  else if c = 98 then some 8
  else if c = 102 then some 12
  else if c = 110 then some 10
  else if c = 114 then some 13
  else if c = 116 then some 9
  else none

/-- The four-hex-digit loop of the uXXXX escape.  The accumulator is a
uint16 ((code << 4) | digit each step).  An invalid digit assigns
INVALID_STRING to the result directly (the source writes ctx->result
rather than calling set_error here, overwriting even a latched
error). -/
def read_hex4 : Nat → Nat → rstate_t → rstate_t × Option Nat
  | 0, code, s => (s, some code)
  | n + 1, code, s =>
    let p := next_char s
    if is_digit p.2 then read_hex4 n ((code * 16 + (p.2 - 48)) % 65536) p.1
    else if is_lower_hex p.2 then read_hex4 n ((code * 16 + (p.2 - 97 + 10)) % 65536) p.1
    else if is_upper_hex p.2 then read_hex4 n ((code * 16 + (p.2 - 65 + 10)) % 65536) p.1
    else ({ p.1 with ctx := { p.1.ctx with result := .INVALID_STRING } }, none)

/-- The trailing bytes of the UTF-8 encoding emitted for a decoded
uXXXX code point: positions n-1 down to 1 receive the low six-bit
groups with the 0x80 continuation bits (x % 64 + 128 equals
(x & 0x3F) | 0x80). -/
def utf8_tail : Nat → Nat → List Nat
  | 0, _ => []
  | k + 1, cp => utf8_tail k (cp / 64) ++ [cp % 64 + 128]

/-- The scan loop of lex_string, with the accumulated string bytes
carried explicitly (the source writes them at the arena cursor).  Fuel
bounds the iterations; every iteration either terminates or consumes
at least one input byte, so remaining length + 2 always suffices. -/
def lex_string_loop : Nat → rstate_t → List Nat → rstate_t
  | 0, s, _ => s
  | fuel + 1, s, acc =>
    let p := next_char s
    let s1 := p.1
    let c := p.2
    if is_end_of_input c then
      { s1 with ctx := set_error s1.ctx .UNEXPECTED_END_OF_INPUT }
    else if is_control c then
      { s1 with ctx := set_error s1.ctx .INVALID_CHARACTER }
    else if is_quote c then
      let q := append_string s1 acc 0
      { q.1 with token_type := .LITERAL, token_value := .vString (cstr q.2) }
    else if is_escape c then
      let p2 := next_char s1
      let s2 := p2.1
      let c2 := p2.2
      if c2 = 117 then
        let h := read_hex4 4 0 s2
        match h.2 with
        | none => h.1
        | some cp =>
          let s3 := h.1
          let bn : Nat × Nat :=
            if cp < 128 then (0, 1)
            else if cp < 2048 then (192, 2)
            else if cp < 65536 then (224, 3)
            else if cp < 2097152 then (240, 4)
            else if cp < 67108864 then (248, 5)
            else (252, 6)
          if s3.ctx.buffer_ptr + bn.2 ≥ s3.ctx.buffer_end then
            { s3 with ctx := set_error s3.ctx .OUT_OF_MEMORY }
          else
            lex_string_loop fuel
              { s3 with ctx := { s3.ctx with buffer_ptr := s3.ctx.buffer_ptr + bn.2 } }
              (acc ++ (Nat.lor (cp / 64 ^ (bn.2 - 1)) bn.1 :: utf8_tail (bn.2 - 1) cp))
      else
        match esc_char c2 with
        | some b =>
          let q := append_string s2 acc b
          lex_string_loop fuel q.1 q.2
        | none => { s2 with ctx := set_error s2.ctx .INVALID_STRING }
    else
      let q := append_string s1 acc c
      lex_string_loop fuel q.1 q.2

/-- lex_string: called after the opening quote has been consumed. -/
def lex_string (s : rstate_t) : rstate_t :=
  lex_string_loop (s.chars.length + 2) s []

/-- The do-while digit run of lex_number: the current character is
processed while it is a digit, accumulating value*10 + digit exactly
(the source accumulates in the native floating type) and counting the
digits consumed; returns the state, the first non-digit character and
the accumulated value and count. -/
def digit_run : Nat → rstate_t → Nat → Rat → Nat → rstate_t × Nat × Rat × Nat
  | 0, s, c, value, count => (s, c, value, count)
  | fuel + 1, s, c, value, count =>
    if is_digit c then
      let p := next_char s
      digit_run fuel p.1 p.2 (value * 10 + ((c : Rat) - 48)) (count + 1)
    else (s, c, value, count)

/-- The exponent digit run (a C long accumulator). -/
def exp_run : Nat → rstate_t → Nat → Nat → rstate_t × Nat × Nat
  | 0, s, c, e => (s, c, e)
  | fuel + 1, s, c, e =>
    if is_digit c then
      let p := next_char s
      exp_run fuel p.1 p.2 (e * 10 + (c - 48))
    else (s, c, e)

/-- The repeated-squaring scaling loop of lex_number, multiplying
variant (exp ≥ 0): value times power^exp with power squared each
step. -/
def scale_mul (exp : Nat) (value power : Rat) : Rat :=
  if h : exp = 0 then value
  else scale_mul (exp / 2) (if exp % 2 = 1 then value * power else value) (power * power)
  termination_by exp
  decreasing_by exact Nat.div_lt_self (Nat.pos_of_ne_zero h) (by norm_num)

/-- The repeated-squaring scaling loop, dividing variant (exp < 0). -/
def scale_div (exp : Nat) (value power : Rat) : Rat :=
  if h : exp = 0 then value
  else scale_div (exp / 2) (if exp % 2 = 1 then value / power else value) (power * power)
  termination_by exp
  decreasing_by exact Nat.div_lt_self (Nat.pos_of_ne_zero h) (by norm_num)

/-- The tail of lex_number: put the terminating character back, scale
by the accumulated decimal exponent and apply the sign, then form the
NUMBER literal token. -/
def lex_number_finish (s : rstate_t) (c : Nat) (value : Rat) (exp : Int)
    (is_negative : Bool) : rstate_t :=
  let s1 := putback_char s c
  let value2 :=
    if exp < 0 then scale_div exp.natAbs value 10 else scale_mul exp.toNat value 10
  let value3 := if is_negative then -value2 else value2
  { s1 with token_type := .LITERAL, token_value := .vNumber value3 }

/-- The optional exponent part of lex_number. -/
def lex_number_exp (s : rstate_t) (c : Nat) (value : Rat) (exp : Int)
    (is_negative : Bool) (fuel : Nat) : rstate_t :=
  if is_exponent_delimiter c then
    let p := next_char s
    if is_plus p.2 then
      let q := next_char p.1
      if is_digit q.2 then
        let r := exp_run fuel q.1 q.2 0
        lex_number_finish r.1 r.2.1 value (exp + r.2.2) is_negative
      else { q.1 with ctx := set_error q.1.ctx .INVALID_NUMBER }
    else if is_minus p.2 then
      let q := next_char p.1
      if is_digit q.2 then
        let r := exp_run fuel q.1 q.2 0
        lex_number_finish r.1 r.2.1 value (exp - r.2.2) is_negative
      else { q.1 with ctx := set_error q.1.ctx .INVALID_NUMBER }
    else
      if is_digit p.2 then
        let r := exp_run fuel p.1 p.2 0
        lex_number_finish r.1 r.2.1 value (exp + r.2.2) is_negative
      else { p.1 with ctx := set_error p.1.ctx .INVALID_NUMBER }
  else lex_number_finish s c value exp is_negative

/-- The optional fractional part of lex_number: each fraction digit
decrements the decimal exponent. -/
def lex_number_frac (s : rstate_t) (c : Nat) (value : Rat) (is_negative : Bool)
    (fuel : Nat) : rstate_t :=
  if is_decimal_point c then
    let p := next_char s
    if is_digit p.2 then
      let r := digit_run fuel p.1 p.2 value 0
      lex_number_exp r.1 r.2.1 r.2.2.1 (-(r.2.2.2 : Int)) is_negative fuel
    else { p.1 with ctx := set_error p.1.ctx .INVALID_NUMBER }
  else lex_number_exp s c value 0 is_negative fuel

/-- The integer part of lex_number: a 1-9 digit starts a digit run, a
lone 0 is accepted, anything else is INVALID_NUMBER (so a leading zero
followed by another digit terminates the number after the 0). -/
def lex_number_int (s : rstate_t) (c : Nat) (is_negative : Bool) (fuel : Nat) :
    rstate_t :=
  if is_digit_1_to_9 c then
    let r := digit_run fuel s c 0 0
    lex_number_frac r.1 r.2.1 r.2.2.1 is_negative fuel
  else if !is_zero c then { s with ctx := set_error s.ctx .INVALID_NUMBER }
  else
    let p := next_char s
    lex_number_frac p.1 p.2 0 is_negative fuel

/-- lex_number.  The numeric payload is accumulated exactly in the
rational field; the source computes in the native floating type
(value*10 + digit accumulation, then repeated-squaring power-of-ten
scaling), and no theorem below depends on the numeric payload. -/
def lex_number (s : rstate_t) : rstate_t :=
  let fuel := s.chars.length + 2
  let p0 := next_char s
  if is_minus p0.2 then
    let p1 := next_char p0.1
    lex_number_int p1.1 p1.2 true fuel
  else lex_number_int p0.1 p0.2 false fuel

/-- The keyword tail comparison (null / false / true): consume and
compare character by character, stopping at the first mismatch. -/
def match_chars : List Nat → rstate_t → rstate_t × Bool
  | [], s => (s, true)
  | k :: rest, s =>
    let p := next_char s
    if p.2 = k then match_chars rest p.1 else (p.1, false)

/-- The token dispatch loop of next_token (the for loop whose only
repetition is whitespace skipping). -/
def next_token_loop : Nat → rstate_t → rstate_t
  | 0, s => s
  | fuel + 1, s =>
    let p := next_char s
    let s1 := p.1
    let c := p.2
    if is_whitespace c then next_token_loop fuel s1
    else if is_end_of_input c then { s1 with token_type := .END_OF_INPUT }
    else if c = 58 then { s1 with token_type := .KEY_VAL_SEPARATOR }
    else if c = 44 then { s1 with token_type := .COMMA }
    else if c = 123 then { s1 with token_type := .OBJECT_OPEN }
    else if c = 125 then { s1 with token_type := .OBJECT_CLOSE }
    else if c = 91 then { s1 with token_type := .ARRAY_OPEN }
    else if c = 93 then { s1 with token_type := .ARRAY_CLOSE }
    else if is_quote c then lex_string s1
    else if is_digit c || is_minus c then lex_number (putback_char s1 c)
    else if c = 110 then
      let m := match_chars [117, 108, 108] s1
      if m.2 then { m.1 with token_type := .LITERAL, token_value := .vNull }
      else { m.1 with ctx := set_error m.1.ctx .UNKNOWN_KEYWORD }
    else if c = 102 then
      let m := match_chars [97, 108, 115, 101] s1
      if m.2 then { m.1 with token_type := .LITERAL, token_value := .vBool false }
      else { m.1 with ctx := set_error m.1.ctx .UNKNOWN_KEYWORD }
    else if c = 116 then
      let m := match_chars [114, 117, 101] s1
      if m.2 then { m.1 with token_type := .LITERAL, token_value := .vBool true }
      else { m.1 with ctx := set_error m.1.ctx .UNKNOWN_KEYWORD }
    else { s1 with ctx := set_error s1.ctx .INVALID_CHARACTER }

/-- next_token: resets the lookahead (the source sets the token type to
UNDEFINED and the value tag to NONE, i.e. an unwritten payload) and
dispatches on the next non-whitespace character. -/
def next_token (s : rstate_t) : rstate_t :=
  next_token_loop (s.chars.length + 2)
    { s with token_type := .UNDEFINED, token_value := .vUndef }

/-- match_token. -/
def match_token (s : rstate_t) (t : token_type_t) : rstate_t × Bool :=
  if s.token_type = t then (next_token s, true) else (s, false)

/-- expect_token. -/
def expect_token (s : rstate_t) (t : token_type_t) : rstate_t × Bool :=
  if s.token_type ≠ t then
    ({ s with ctx := set_error s.ctx .SYNTAX_ERROR }, false)
  else (s, true)

/-- Lifting a context operation over the reader state. -/
def on_ctx (f : zetes_t → zetes_t) (s : rstate_t) : rstate_t :=
  { s with ctx := f s.ctx }

mutual

/-- parse_value: dispatch on the lookahead token; a literal is emplaced
directly on the operand stack.  Fuel bounds the mutual recursion; every
recursive step consumes input, so fuel exhaustion (which returns the
state unchanged) is unreachable for adequate fuel. -/
def parse_value : Nat → rstate_t → rstate_t
  | 0, s => s
  | fuel + 1, s =>
    if !ok s.ctx then s
    else
      let m := match_token s .ARRAY_OPEN
      if m.2 then parse_array fuel m.1
      else
        let m2 := match_token m.1 .OBJECT_OPEN
        if m2.2 then parse_object fuel m2.1
        else
          let e := expect_token m2.1 .LITERAL
          if e.2 then
            let r := stack_emplace e.1.ctx
            if r.2 then next_token { e.1 with ctx := set_top r.1 e.1.token_value }
            else { e.1 with ctx := r.1 }
          else e.1

/-- parse_array. -/
def parse_array : Nat → rstate_t → rstate_t
  | 0, s => s
  | fuel + 1, s =>
    let s1 := on_ctx zetes_push_new_array s
    let m := match_token s1 .ARRAY_CLOSE
    if m.2 then m.1 else parse_array_loop fuel m.1

/-- The element loop of parse_array. -/
def parse_array_loop : Nat → rstate_t → rstate_t
  | 0, s => s
  | fuel + 1, s =>
    if ok s.ctx then
      let s1 := parse_value fuel s
      let s2 := on_ctx zetes_array_append s1
      let m := match_token s2 .COMMA
      if m.2 then parse_array_loop fuel m.1
      else
        let m2 := match_token m.1 .ARRAY_CLOSE
        if m2.2 then m2.1
        else on_ctx (fun c => set_error c .SYNTAX_ERROR) m2.1
    else s

/-- parse_object. -/
def parse_object : Nat → rstate_t → rstate_t
  | 0, s => s
  | fuel + 1, s =>
    let s1 := on_ctx zetes_push_new_object s
    let m := match_token s1 .OBJECT_CLOSE
    if m.2 then m.1 else parse_object_loop fuel m.1

/-- The member loop of parse_object.  A missing key/value separator
just breaks out without latching an error (exactly as the source: the
trailing end-of-input check of zetes_read is what usually rejects such
inputs). -/
def parse_object_loop : Nat → rstate_t → rstate_t
  | 0, s => s
  | fuel + 1, s =>
    if ok s.ctx then
      let e := expect_token s .LITERAL
      if !e.2 || typeOf e.1.token_value ≠ .STRING then
        on_ctx (fun c => set_error c .SYNTAX_ERROR) e.1
      else
        let key :=
          match e.1.token_value with
          | .vString k => k
          | _ => []
        let s2 := next_token e.1
        let m := match_token s2 .KEY_VAL_SEPARATOR
        if m.2 then
          let s3 := parse_value fuel m.1
          let s4 := on_ctx (fun c => object_set_with_interned_key c key) s3
          let mc := match_token s4 .COMMA
          if mc.2 then parse_object_loop fuel mc.1
          else
            let m2 := match_token mc.1 .OBJECT_CLOSE
            if m2.2 then m2.1
            else on_ctx (fun c => set_error c .SYNTAX_ERROR) m2.1
        else m.1
    else s

end

/-- zetes_read: a no-op returning the latched result on a failed
context; otherwise prime the lookahead, parse one value, and require
the end-of-input token (trailing garbage is SYNTAX_ERROR).  The fuel
3 * (length + 2) dominates the input-consuming mutual recursion. -/
def zetes_read (input : List Nat) (c : zetes_t) : zetes_t × zetes_result_t :=
  if ok c then
    let s0 : rstate_t :=
      { ctx := c, chars := input, prev_char := 0,
        token_type := .UNDEFINED, token_value := .vUndef }
    let s1 := next_token s0
    let s2 := parse_value (3 * (input.length + 2)) s1
    let s3 := if ok s2.ctx then (expect_token s2 .END_OF_INPUT).1 else s2
    (s3.ctx, s3.ctx.result)
  else (c, c.result)

/-- Claim C4: sticky-error propagation.  On a context whose status is
any non-OK kind, every public operation up to the next reset returns
the context completely unchanged (arena cursor, stack pointer, stack
contents, heaps and status) together with the no-op default result for
its type: NONE for zetes_type, false for zetes_pop_bool and
zetes_object_has, 0 for zetes_pop_number and both size queries, the
NULL string for zetes_pop_string, no output and the latched status for
zetes_write and zetes_read. -/
theorem sticky_error_all_ops_noop (c : zetes_t) (h : c.result ≠ .OK) :
    zetes_push_null c = c ∧
    (∀ b, zetes_push_bool c b = c) ∧
    (∀ x, zetes_push_number c x = c) ∧
    (∀ s, zetes_push_string c s = c) ∧
    zetes_push_new_array c = c ∧
    zetes_push_new_object c = c ∧
    zetes_type c = (c, .NONE) ∧
    zetes_pop c = c ∧
    zetes_pop_null c = c ∧
    zetes_pop_bool c = (c, false) ∧
    zetes_pop_number c = (c, 0) ∧
    zetes_pop_string c = (c, none) ∧
    zetes_array_size c = (c, 0) ∧
    (∀ i, zetes_array_index c i = c) ∧
    zetes_array_append c = c ∧
    zetes_object_size c = (c, 0) ∧
    (∀ i, zetes_object_index c i = c) ∧
    (∀ k, zetes_object_has c k = (c, false)) ∧
    (∀ k, zetes_object_get c k = c) ∧
    (∀ k, zetes_object_set c k = c) ∧
    (∀ fmt fuel, zetes_write fmt fuel c = (c, none, c.result)) ∧
    (∀ input, zetes_read input c = (c, c.result)) := by
  have hok : ok c = false := by simp [ok, h]
  refine ⟨?_, fun b => ?_, fun x => ?_, fun s => ?_, ?_, ?_, ?_, ?_, ?_, ?_, ?_,
    ?_, ?_, fun i => ?_, ?_, ?_, fun i => ?_, fun k => ?_, fun k => ?_,
    fun k => ?_, fun fmt fuel => ?_, fun input => ?_⟩ <;>
    simp [zetes_push_null, zetes_push_bool, zetes_push_number, zetes_push_string,
      zetes_push_new_array, zetes_push_new_object, zetes_type, zetes_pop,
      zetes_pop_null, zetes_pop_bool, zetes_pop_number, zetes_pop_string,
      zetes_array_size, zetes_array_index, zetes_array_append, zetes_object_size,
      zetes_object_index, zetes_object_has, zetes_object_get, zetes_object_set,
      zetes_write, zetes_read, stack_emplace, stack_validate, hok]

/-- A concrete failed context: popping the freshly initialized empty
stack latches STACK_EMPTY. -/
def ctx_failed : zetes_t :=
  zetes_pop (zetes_init 2 0 128)

/-- Witness for the C4 theorem at a concrete failed context. -/
theorem sticky_error_all_ops_noop_witness :
    (ctx_failed.result ≠ .OK) ∧
    zetes_push_null ctx_failed = ctx_failed ∧
    zetes_type ctx_failed = (ctx_failed, .NONE) :=
  ⟨by decide, (sticky_error_all_ops_noop ctx_failed (by decide)).1,
   (sticky_error_all_ops_noop ctx_failed (by decide)).2.2.2.2.2.2.1⟩

/-! Helper lemmas about the lexer, used for claim C10. -/

/-- next_char never touches the lookahead token. -/
theorem next_char_token_value (s : rstate_t) :
    (next_char s).1.token_value = s.token_value := by
  unfold next_char
  split
  · rfl
  · split <;> rfl

/-- next_char never touches the context. -/
theorem next_char_ctx (s : rstate_t) :
    (next_char s).1.ctx = s.ctx := by
  unfold next_char
  split
  · rfl
  · split <;> rfl

/-- append_string never touches the lookahead token. -/
theorem append_string_token_value (s : rstate_t) (acc : List Nat) (ch : Nat) :
    (append_string s acc ch).1.token_value = s.token_value := by
  unfold append_string
  split <;> rfl

/-- read_hex4 never touches the lookahead token. -/
theorem read_hex4_token_value (n : Nat) : ∀ (code : Nat) (s : rstate_t),
    (read_hex4 n code s).1.token_value = s.token_value := by
  induction n with
  | zero => intro code s; rfl
  | succ n ih =>
    intro code s
    simp only [read_hex4]
    split
    · rw [ih, next_char_token_value]
    · split
      · rw [ih, next_char_token_value]
      · split
        · rw [ih, next_char_token_value]
        · exact next_char_token_value s

/-- A C string value formed by cstr never contains a NUL byte. -/
theorem cstr_nul_free (bs : List Nat) : (0 : Nat) ∉ cstr bs := by
  intro h
  have := List.mem_takeWhile_imp h
  simp at this

set_option maxHeartbeats 2000000 in
/-- Any String token produced by the string lexer loop is NUL-free,
provided the incoming lookahead token already satisfied this (the loop
only forms string values through cstr). -/
theorem lex_string_loop_token (fuel : Nat) :
    ∀ (s : rstate_t) (acc str : List Nat),
      (∀ t, s.token_value = .vString t → (0 : Nat) ∉ t) →
      (lex_string_loop fuel s acc).token_value = .vString str → (0 : Nat) ∉ str := by
  induction fuel with
  | zero => intro s acc str hs h; exact hs str h
  | succ fuel ih =>
    intro s acc str hs h
    simp only [lex_string_loop] at h
    rcases hP : next_char s with ⟨s1, c⟩
    simp only [hP] at h
    have h1 : s1.token_value = s.token_value := by
      have e := next_char_token_value s
      rw [hP] at e
      exact e
    have hs1 : ∀ t, s1.token_value = .vString t → (0 : Nat) ∉ t :=
      fun t ht => hs t (h1.symm.trans ht)
    split at h
    · exact hs1 str (by simpa using h)
    · split at h
      · exact hs1 str (by simpa using h)
      · split at h
        · -- closing quote: the token is vString (cstr _)
          rcases hA : append_string s1 acc 0 with ⟨sA, accA⟩
          simp only [hA] at h
          have hc : cstr accA = str := by simpa using h
          rw [← hc]
          exact cstr_nul_free _
        · split at h
          · -- escape
            rcases hQ : next_char s1 with ⟨s2, c2⟩
            simp only [hQ] at h
            have h2 : s2.token_value = s.token_value := by
              have e := next_char_token_value s1
              rw [hQ] at e
              exact e.trans h1
            have hs2 : ∀ t, s2.token_value = .vString t → (0 : Nat) ∉ t :=
              fun t ht => hs t (h2.symm.trans ht)
            split at h
            · -- uXXXX escape
              rcases hR : read_hex4 4 0 s2 with ⟨s3, r⟩
              simp only [hR] at h
              have h3 : s3.token_value = s.token_value := by
                have e := read_hex4_token_value 4 0 s2
                rw [hR] at e
                exact e.trans h2
              have hs3 : ∀ t, s3.token_value = .vString t → (0 : Nat) ∉ t :=
                fun t ht => hs t (h3.symm.trans ht)
              rcases r with _ | cp
              · exact hs3 str (by simpa using h)
              · simp only [] at h
                repeat' split at h
                all_goals
                  first
                  | exact hs3 str (by simpa using h)
                  | exact ih _ _ _ (fun t ht => hs3 t (by simpa using ht)) h
            · -- two-character escape or invalid escape
              split at h
              · exact ih _ _ _
                  (fun t ht => hs2 t ((append_string_token_value s2 acc _).symm.trans ht)) h
              · exact hs2 str (by simpa using h)
          · -- plain byte
            exact ih _ _ _
              (fun t ht => hs1 t ((append_string_token_value s1 acc c).symm.trans ht)) h

/-- digit_run never touches the lookahead token. -/
theorem digit_run_token_value (fuel : Nat) : ∀ (s : rstate_t) (c : Nat) (v : Rat)
    (n : Nat), (digit_run fuel s c v n).1.token_value = s.token_value := by
  induction fuel with
  | zero => intro s c v n; rfl
  | succ fuel ih =>
    intro s c v n
    simp only [digit_run]
    split
    · rw [ih, next_char_token_value]
    · rfl

/-- exp_run never touches the lookahead token. -/
theorem exp_run_token_value (fuel : Nat) : ∀ (s : rstate_t) (c e : Nat),
    (exp_run fuel s c e).1.token_value = s.token_value := by
  induction fuel with
  | zero => intro s c e; rfl
  | succ fuel ih =>
    intro s c e
    simp only [exp_run]
    split
    · rw [ih, next_char_token_value]
    · rfl

/-- The token formed by lex_number_finish is a NUMBER literal, never a
String. -/
theorem lex_number_finish_not_string (s : rstate_t) (c : Nat) (v : Rat) (e : Int)
    (neg : Bool) (t : List Nat) :
    (lex_number_finish s c v e neg).token_value ≠ .vString t := by
  simp [lex_number_finish, putback_char]

/-- A String token can only leave lex_number_exp if it was already the
lookahead token. -/
theorem lex_number_exp_string (s : rstate_t) (c : Nat) (v : Rat) (e : Int)
    (neg : Bool) (fuel : Nat) (t : List Nat)
    (h : (lex_number_exp s c v e neg fuel).token_value = .vString t) :
    s.token_value = .vString t := by
  simp only [lex_number_exp] at h
  repeat' split at h
  all_goals
    first
    | exact absurd h (lex_number_finish_not_string _ _ _ _ _ t)
    | simpa [exp_run_token_value, next_char_token_value] using h

/-- A String token can only leave lex_number_frac if it was already the
lookahead token. -/
theorem lex_number_frac_string (s : rstate_t) (c : Nat) (v : Rat) (neg : Bool)
    (fuel : Nat) (t : List Nat)
    (h : (lex_number_frac s c v neg fuel).token_value = .vString t) :
    s.token_value = .vString t := by
  simp only [lex_number_frac] at h
  repeat' split at h
  all_goals
    first
    | (have h2 := lex_number_exp_string _ _ _ _ _ _ t h
       simpa [digit_run_token_value, next_char_token_value] using h2)
    | simpa [next_char_token_value] using h

/-- A String token can only leave lex_number_int if it was already the
lookahead token. -/
theorem lex_number_int_string (s : rstate_t) (c : Nat) (neg : Bool) (fuel : Nat)
    (t : List Nat)
    (h : (lex_number_int s c neg fuel).token_value = .vString t) :
    s.token_value = .vString t := by
  simp only [lex_number_int] at h
  repeat' split at h
  all_goals
    first
    | (have h2 := lex_number_frac_string _ _ _ _ _ t h
       simpa [digit_run_token_value, next_char_token_value] using h2)
    | simpa [next_char_token_value] using h

/-- A String token can only leave lex_number if it was already the
lookahead token (lex_number forms NUMBER literals only). -/
theorem lex_number_string (s : rstate_t) (t : List Nat)
    (h : (lex_number s).token_value = .vString t) :
    s.token_value = .vString t := by
  simp only [lex_number] at h
  split at h
  · have h2 := lex_number_int_string _ _ _ _ t h
    simpa [next_char_token_value] using h2
  · have h2 := lex_number_int_string _ _ _ _ t h
    simpa [next_char_token_value] using h2

/-- match_chars never touches the lookahead token. -/
theorem match_chars_token_value (ks : List Nat) : ∀ (s : rstate_t),
    (match_chars ks s).1.token_value = s.token_value := by
  induction ks with
  | nil => intro s; rfl
  | cons k ks ih =>
    intro s
    simp only [match_chars]
    split
    · rw [ih, next_char_token_value]
    · exact next_char_token_value s

set_option maxHeartbeats 1000000 in
/-- Any String token produced by the token dispatch loop is NUL-free,
provided the incoming lookahead token already satisfied this. -/
theorem next_token_loop_token (fuel : Nat) :
    ∀ (s : rstate_t) (str : List Nat),
      (∀ t, s.token_value = .vString t → (0 : Nat) ∉ t) →
      (next_token_loop fuel s).token_value = .vString str → (0 : Nat) ∉ str := by
  induction fuel with
  | zero => intro s str hs h; exact hs str h
  | succ fuel ih =>
    intro s str hs h
    simp only [next_token_loop] at h
    rcases hP : next_char s with ⟨s1, c⟩
    simp only [hP] at h
    have h1 : s1.token_value = s.token_value := by
      have e := next_char_token_value s
      rw [hP] at e
      exact e
    have hs1 : ∀ t, s1.token_value = .vString t → (0 : Nat) ∉ t :=
      fun t ht => hs t (h1.symm.trans ht)
    by_cases hw : is_whitespace c = true
    · rw [if_pos hw] at h
      exact ih _ _ hs1 h
    rw [if_neg hw] at h
    by_cases h0 : is_end_of_input c = true
    · rw [if_pos h0] at h
      exact hs1 str (by simpa using h)
    rw [if_neg h0] at h
    by_cases hx1 : c = 58
    · rw [if_pos hx1] at h
      exact hs1 str (by simpa using h)
    rw [if_neg hx1] at h
    by_cases hx2 : c = 44
    · rw [if_pos hx2] at h
      exact hs1 str (by simpa using h)
    rw [if_neg hx2] at h
    by_cases hx3 : c = 123
    · rw [if_pos hx3] at h
      exact hs1 str (by simpa using h)
    rw [if_neg hx3] at h
    by_cases hx4 : c = 125
    · rw [if_pos hx4] at h
      exact hs1 str (by simpa using h)
    rw [if_neg hx4] at h
    by_cases hx5 : c = 91
    · rw [if_pos hx5] at h
      exact hs1 str (by simpa using h)
    rw [if_neg hx5] at h
    by_cases hx6 : c = 93
    · rw [if_pos hx6] at h
      exact hs1 str (by simpa using h)
    rw [if_neg hx6] at h
    by_cases hq : is_quote c = true
    · rw [if_pos hq] at h
      exact lex_string_loop_token _ _ _ _ hs1 (by simpa [lex_string] using h)
    rw [if_neg hq] at h
    by_cases hd : (is_digit c || is_minus c) = true
    · rw [if_pos hd] at h
      have h2 := lex_number_string _ _ h
      exact hs1 str (by simpa [putback_char] using h2)
    rw [if_neg hd] at h
    by_cases hk1 : c = 110
    · rw [if_pos hk1] at h
      by_cases hm : (match_chars [117, 108, 108] s1).2 = true
      · rw [if_pos hm] at h
        simp at h
      · rw [if_neg hm] at h
        exact hs1 str (by simpa [match_chars_token_value] using h)
    rw [if_neg hk1] at h
    by_cases hk2 : c = 102
    · rw [if_pos hk2] at h
      by_cases hm : (match_chars [97, 108, 115, 101] s1).2 = true
      · rw [if_pos hm] at h
        simp at h
      · rw [if_neg hm] at h
        exact hs1 str (by simpa [match_chars_token_value] using h)
    rw [if_neg hk2] at h
    by_cases hk3 : c = 116
    · rw [if_pos hk3] at h
      by_cases hm : (match_chars [114, 117, 101] s1).2 = true
      · rw [if_pos hm] at h
        simp at h
      · rw [if_neg hm] at h
        exact hs1 str (by simpa [match_chars_token_value] using h)
    rw [if_neg hk3] at h
    exact hs1 str (by simpa using h)

/-- Any String token produced by next_token is NUL-free (next_token
resets the lookahead before dispatching, so nothing is inherited). -/
theorem next_token_string_nul_free (s : rstate_t) (str : List Nat)
    (h : (next_token s).token_value = .vString str) : (0 : Nat) ∉ str := by
  refine next_token_loop_token _ _ _ ?_ (by simpa [next_token] using h)
  intro t ht
  simp at ht

/-- The token dispatch on a NUL byte at the head of the stream: the
END_OF_INPUT token, with the context untouched. -/
theorem next_token_loop_nul (fuel : Nat) (s : rstate_t) (rest : List Nat)
    (hp : s.prev_char = 0) (hc : s.chars = 0 :: rest) :
    next_token_loop (fuel + 1) s =
      { s with chars := rest, token_type := .END_OF_INPUT } := by
  simp only [next_token_loop]
  simp [next_char, hp, hc, is_whitespace, is_end_of_input]

/-- Inside a string literal, a NUL byte reached after any run of plain
bytes (no quote, no backslash, no control characters) latches
UNEXPECTED_END_OF_INPUT, provided the arena can hold the run. -/
theorem lex_string_loop_nul_ends (p : List Nat) :
    ∀ (fuel : Nat) (s : rstate_t) (acc rest : List Nat),
      s.ctx.result = .OK → s.prev_char = 0 → s.chars = p ++ 0 :: rest →
      (∀ b ∈ p, 32 ≤ b ∧ b ≠ 34 ∧ b ≠ 92) →
      s.ctx.buffer_ptr + p.length ≤ s.ctx.buffer_end →
      p.length + 1 ≤ fuel →
      (lex_string_loop fuel s acc).ctx.result = .UNEXPECTED_END_OF_INPUT := by
  induction p with
  | nil =>
    intro fuel s acc rest hok hprev hchars hbytes hspace hfuel
    rcases fuel with _ | fuel
    · omega
    · simp only [lex_string_loop]
      simp [next_char, hprev, hchars, is_end_of_input, set_error, hok]
  | cons b p ih =>
    intro fuel s acc rest hok hprev hchars hbytes hspace hfuel
    rcases fuel with _ | fuel
    · omega
    · obtain ⟨hb32, hb34, hb92⟩ := hbytes b (List.mem_cons_self b p)
      have hb0 : ¬ is_end_of_input b = true := by
        simp [is_end_of_input]
        omega
      have hbc : ¬ is_control b = true := by
        simp [is_control]
        omega
      have hbq : ¬ is_quote b = true := by
        simp [is_quote]
        exact hb34
      have hbe : ¬ is_escape b = true := by
        simp [is_escape]
        exact hb92
      have hroom : ¬ (s.ctx.buffer_ptr ≥ s.ctx.buffer_end) := by
        simp only [List.length_cons] at hspace
        omega
      simp only [lex_string_loop, next_char, hprev, hchars, List.cons_append]
      simp only [ne_eq, not_true_eq_false, if_neg, ite_false]
      simp [hb0, hbc, hbq, hbe, append_string, hroom]
      apply ih fuel _ (acc ++ [b]) rest
      · simpa using hok
      · simpa using hprev
      · simp
      · intro x hx
        exact hbytes x (List.mem_cons_of_mem b hx)
      · simp only [List.length_cons] at hspace
        simp
        omega
      · simp only [List.length_cons] at hfuel
        omega

/-- Claim C10: a literal NUL byte (0x00) delivered by the input
callback is treated exactly as end of input.  Between tokens the
dispatcher produces the END_OF_INPUT token (the very token a
zero-length read produces) leaving the context untouched; inside a
string literal, a NUL reached after any run of plain bytes latches
UNEXPECTED_END_OF_INPUT; and every String token the lexer produces is
NUL-free (string values are read through their NUL terminator), so a
parsed String can never contain a NUL byte. -/
theorem reader_nul_is_end_of_input :
    (∀ (c : zetes_t) (rest : List Nat) (tt : token_type_t) (tv : zetes_value_t),
      (next_token ⟨c, 0 :: rest, 0, tt, tv⟩).token_type = .END_OF_INPUT ∧
      (next_token ⟨c, 0 :: rest, 0, tt, tv⟩).ctx = c) ∧
    (∀ (p rest : List Nat) (s : rstate_t),
      s.ctx.result = .OK → s.prev_char = 0 → s.chars = p ++ 0 :: rest →
      (∀ b ∈ p, 32 ≤ b ∧ b ≠ 34 ∧ b ≠ 92) →
      s.ctx.buffer_ptr + p.length ≤ s.ctx.buffer_end →
      (lex_string s).ctx.result = .UNEXPECTED_END_OF_INPUT) ∧
    (∀ (s : rstate_t) (str : List Nat),
      (next_token s).token_value = .vString str → (0 : Nat) ∉ str) := by
  refine ⟨?_, ?_, ?_⟩
  · intro c rest tt tv
    have e : next_token ⟨c, 0 :: rest, 0, tt, tv⟩ =
        { ctx := c, chars := rest, prev_char := 0,
          token_type := .END_OF_INPUT, token_value := .vUndef } := by
      show next_token_loop ((0 :: rest).length + 2)
        { ctx := c, chars := 0 :: rest, prev_char := 0,
          token_type := .UNDEFINED, token_value := .vUndef } = _
      exact next_token_loop_nul (rest.length + 2) _ rest rfl rfl
    rw [e]
    exact ⟨rfl, rfl⟩
  · intro p rest s hok hprev hchars hbytes hspace
    show (lex_string_loop (s.chars.length + 2) s []).ctx.result = _
    refine lex_string_loop_nul_ends p (s.chars.length + 2) s [] rest hok hprev
      hchars hbytes hspace ?_
    rw [hchars]
    simp [List.length_append]
    omega
  · exact fun s str h => next_token_string_nul_free s str h

/-- Witness for the C10 theorem at concrete inputs: a lone NUL byte
between tokens yields the END_OF_INPUT token, and the string body
consisting of the byte a followed by a NUL latches
UNEXPECTED_END_OF_INPUT. -/
theorem reader_nul_is_end_of_input_witness :
    ((⟨zetes_init 2 0 128, [97, 0], 0, .UNDEFINED, .vUndef⟩ : rstate_t).ctx.result =
      .OK) ∧
    (next_token ⟨zetes_init 2 0 128, [0], 0, .UNDEFINED, .vUndef⟩).token_type =
      .END_OF_INPUT ∧
    (lex_string ⟨zetes_init 2 0 128, [97, 0], 0, .UNDEFINED, .vUndef⟩).ctx.result =
      .UNEXPECTED_END_OF_INPUT :=
  ⟨by decide,
   (reader_nul_is_end_of_input.1 (zetes_init 2 0 128) [] .UNDEFINED .vUndef).1,
   reader_nul_is_end_of_input.2.1 [97] []
     ⟨zetes_init 2 0 128, [97, 0], 0, .UNDEFINED, .vUndef⟩
     (by decide) rfl rfl (by decide) (by decide)⟩

end Zetes
